import Mathlib

/-!
Shallow embedding of the collaborative task-management core
(`taskController`, `projectController`, `notificationController` and the
mongoose models) and proofs about its ordering, audit, authorization,
membership and notification behaviour.

Identifiers (Mongo ObjectIds) are modelled as `Nat`; enum-typed string
fields (`status`, `priority`, member roles, notification types) are kept
as `String`, matching the raw string comparisons performed by the
controllers.  Optional request-body fields are `Option` values, and
JavaScript truthiness of a submitted string (`v || old`) is modelled by
`truthyStr` (`none` and `some ""` are falsy).  The mongoose `Map` used
for `memberRoles` is modelled as an association list.
-/

namespace TMS

/-- System-level user roles (models/User.ts `UserRole`). -/
inductive UserRole where
  | admin
  | manager
  | developer
deriving DecidableEq, Repr

/-- An authenticated actor: `req.user` as used by the controllers. -/
structure Actor where
  id : Nat
  role : UserRole
deriving DecidableEq, Repr

/-- A work item (models/Task.ts).  `position` is `Option Nat` because the
controller explicitly handles documents whose `position` field is missing;
documents created through the schema get the default `some 0`. -/
structure Task where
  id : Nat
  title : String
  description : String
  status : String
  priority : String
  project : Nat
  assignedTo : Nat
  createdBy : Nat
  position : Option Nat
deriving DecidableEq, Repr

/-- An audit log entry (models/TaskLog.ts).  The per-field before/after
values are optional, exactly as in the schema. -/
structure TaskLog where
  task : Nat
  user : Nat
  previousStatus : Option String := none
  newStatus : Option String := none
  previousPriority : Option String := none
  newPriority : Option String := none
  previousAssignee : Option Nat := none
  newAssignee : Option Nat := none
  message : String
deriving DecidableEq, Repr

/-- A project (models/Project.ts).  `memberRoles` is the mongoose `Map`
from user id to role string, modelled as an association list. -/
structure Project where
  id : Nat
  name : String
  description : String
  owner : Nat
  members : List Nat
  memberRoles : List (Nat × String)
deriving DecidableEq, Repr

/-- A notification document (models/Notification.ts). -/
structure Notification where
  user : Nat
  type : String
  message : String
  relatedProject : Option Nat := none
  relatedTask : Option Nat := none
  read : Bool := false
deriving DecidableEq, Repr

/-- Events published on the per-project socket rooms (utils/socketEvents.ts).
`tasksReordered` carries the reordered task list (the code projects it to
id/title/position/status before emitting). -/
inductive SocketEvent where
  | taskCreated (projectId : Nat) (task : Task)
  | taskUpdated (projectId : Nat) (task : Task)
  | taskDeleted (projectId : Nat) (taskId : Nat)
  | tasksReordered (projectId : Nat) (tasks : List Task)
  | projectUpdated (project : Project)
  | projectDeleted (projectId : Nat)
deriving DecidableEq, Repr

/-- The persistent state of the application: the collections the
controllers read and write, the emitted socket events, and a counter used
to mint fresh ObjectIds. -/
structure AppState where
  users : List Nat
  projects : List Project
  tasks : List Task
  logs : List TaskLog
  notifications : List Notification
  events : List SocketEvent
  nextId : Nat
deriving DecidableEq, Repr

/-- HTTP-level response categories produced by the controllers.
`okTasks` is the 200 response of the reorder endpoint, which carries the
reordered task list. -/
inductive Resp where
  | ok
  | okTasks (tasks : List Task)
  | created
  | badRequest (msg : String)
  | forbidden (msg : String)
  | notFound (msg : String)
deriving DecidableEq, Repr

/-- HTTP status code of a response. -/
def Resp.statusCode : Resp → Nat
  | .ok => 200
  | .okTasks _ => 200
  | .created => 201
  | .badRequest _ => 400
  | .forbidden _ => 403
  | .notFound _ => 404

/-- JavaScript truthiness of an optional string request-body field:
`undefined` and the empty string are falsy. -/
def truthyStr : Option String → Bool
  | some v => !(v == "")
  | none => false

/-- Look up a task by id (`Task.findById`). -/
def findTask (s : AppState) (taskId : Nat) : Option Task :=
  s.tasks.find? (fun t => t.id == taskId)

/-- Look up a project by id (`Project.findById`). -/
def findProject (s : AppState) (projectId : Nat) : Option Project :=
  s.projects.find? (fun p => p.id == projectId)

/-- The membership test used throughout the task controller:
`project.members.includes(req.user._id) || project.owner === req.user._id`. -/
def isProjectMember (p : Project) (userId : Nat) : Bool :=
  p.members.contains userId || p.owner == userId

/-- Read a key from the `memberRoles` map (`Map.get`). -/
def mapGet (m : List (Nat × String)) (k : Nat) : Option String :=
  (m.find? (fun e => e.fst == k)).map Prod.snd

/-- Write a key in the `memberRoles` map (`Map.set`): replace the binding
if the key is present, otherwise append it. -/
def mapSet (m : List (Nat × String)) (k : Nat) (v : String) : List (Nat × String) :=
  if m.any (fun e => e.fst == k) then
    m.map (fun e => if e.fst == k then (k, v) else e)
  else
    m ++ [(k, v)]

/-- Key set of the `memberRoles` map. -/
def mapKeys (m : List (Nat × String)) : List Nat :=
  m.map Prod.fst

/-- The membership/role synchronisation property of a project: the key
set of `memberRoles` coincides with the user set of `members`. -/
def rolesMatchMembers (p : Project) : Prop :=
  (∀ u ∈ mapKeys p.memberRoles, u ∈ p.members) ∧ ∀ u ∈ p.members, u ∈ mapKeys p.memberRoles

instance (p : Project) : Decidable (rolesMatchMembers p) := by
  unfold rolesMatchMembers
  infer_instance

/-- All live tasks of a project (`Task.find({ project: projectId })`). -/
def projectTasksOf (s : AppState) (projectId : Nat) : List Task :=
  s.tasks.filter (fun t => t.project == projectId)

/-- Sort key of an optional position: a missing `position` sorts before
every number (Mongo orders missing fields first). -/
def optKey : Option Nat → Int
  | some n => (n : Int)
  | none => -1

/-- Sort key used by `.sort({ position: 1 })`. -/
def posKey (t : Task) : Int :=
  optKey t.position

/-- The ordering relation on tasks induced by `posKey`. -/
def posLe (t u : Task) : Prop :=
  posKey t ≤ posKey u

instance : DecidableRel posLe := fun t u => inferInstanceAs (Decidable (posKey t ≤ posKey u))

instance : IsTotal Task posLe := ⟨fun t u => Int.le_total (posKey t) (posKey u)⟩

instance : IsTrans Task posLe := ⟨fun _ _ _ h1 h2 => le_trans h1 h2⟩

/-- Load order of `Task.find({ project }).sort({ position: 1 })`. -/
def sortByPosition (ts : List Task) : List Task :=
  List.insertionSort posLe ts

/-- Assign `position := i, i+1, …` to the elements of a list in order:
both the implicit position-migration step and the final renumbering pass
of the reorder handler (`forEach((t, index) => t.position = index)`). -/
def renumberFrom : Nat → List Task → List Task
  | _, [] => []
  | i, t :: ts => { t with position := some i } :: renumberFrom (i + 1) ts

/-- JavaScript `splice(i, 0, a)`: insert `a` at index `i`, appending when
`i` is past the end. -/
def insertAt : Nat → Task → List Task → List Task
  | 0, a, l => a :: l
  | _ + 1, a, [] => [a]
  | i + 1, a, b :: l => b :: insertAt i a l

/-- Clamping of the requested position:
`Math.max(0, Math.min(newPosition, projectTasks.length - 1))`. -/
def clampPos (newPosition : Int) (count : Nat) : Nat :=
  (max 0 (min newPosition ((count : Int) - 1))).toNat

/-- Persist a batch of updated task documents: every stored task is
replaced by the updated document with the same id, if any
(`Promise.all(projectTasks.map(t => t.save()))`). -/
def saveTasks (stored : List Task) (updated : List Task) : List Task :=
  stored.map (fun u => ((updated.find? (fun t => t.id == u.id)).getD u))

/-- Request body of `POST /api/projects/:projectId/tasks`; `status` and
`priority` get destructuring defaults when absent. -/
structure CreateTaskBody where
  title : String
  description : String
  status : Option String := none
  priority : Option String := none
  assignedTo : Option Nat := none
deriving DecidableEq, Repr

/-- Request body of `PUT /api/tasks/:id`; every field is optional. -/
structure UpdateTaskBody where
  title : Option String := none
  description : Option String := none
  status : Option String := none
  priority : Option String := none
  assignedTo : Option Nat := none
deriving DecidableEq, Repr

/-- The `createTask` handler. -/
def createTask (s : AppState) (actor : Actor) (projectId : Nat) (body : CreateTaskBody) :
    Resp × AppState :=
  match findProject s projectId with
  | none => (Resp.notFound "Project not found", s)
  | some project =>
    if !(isProjectMember project actor.id) && !(actor.role == UserRole.admin) then
      (Resp.forbidden "Not authorized to create tasks in this project", s)
    else
      let status := body.status.getD "pending"
      let priority := body.priority.getD "medium"
      let assignee := body.assignedTo.getD actor.id
      let task : Task :=
        { id := s.nextId, title := body.title, description := body.description,
          status := status, priority := priority, project := projectId,
          assignedTo := assignee, createdBy := actor.id, position := some 0 }
      let entry : TaskLog :=
        { task := task.id, user := actor.id, newStatus := some status,
          newPriority := some priority, newAssignee := some assignee,
          message := "Task created" }
      let notifs : List Notification :=
        match body.assignedTo with
        | some a =>
          if !(a == actor.id) then
            [{ user := a, type := "task_assignment",
               message := "You have been assigned to task: " ++ body.title ++
                 " in project " ++ project.name,
               relatedProject := some projectId, relatedTask := some task.id }]
          else []
        | none => []
      (Resp.created,
        { s with tasks := s.tasks ++ [task], logs := s.logs ++ [entry],
                 nextId := s.nextId + 1,
                 events := s.events ++ [SocketEvent.taskCreated projectId task],
                 notifications := s.notifications ++ notifs })

/-- Body of the `updateTask` handler after the task and project have been
found and the actor authorized. -/
def updateApply (s : AppState) (actor : Actor) (task : Task) (project : Project)
    (body : UpdateTaskBody) : Resp × AppState :=
  let stChanged := truthyStr body.status && !(body.status == some task.status)
  let prChanged := truthyStr body.priority && !(body.priority == some task.priority)
  let asChanged := body.assignedTo.isSome && !(body.assignedTo == some task.assignedTo)
  let entry : TaskLog :=
    { task := task.id, user := actor.id, message := "Task updated",
      previousStatus := if stChanged then some task.status else none,
      newStatus := if stChanged then body.status else none,
      previousPriority := if prChanged then some task.priority else none,
      newPriority := if prChanged then body.priority else none,
      previousAssignee := if asChanged then some task.assignedTo else none,
      newAssignee := if asChanged then body.assignedTo else none }
  let task1 : Task :=
    { task with
      title := if truthyStr body.title then body.title.getD task.title else task.title,
      description :=
        if truthyStr body.description then body.description.getD task.description
        else task.description,
      status := if truthyStr body.status then body.status.getD task.status else task.status,
      priority :=
        if truthyStr body.priority then body.priority.getD task.priority
        else task.priority,
      assignedTo :=
        if body.assignedTo.isSome then body.assignedTo.getD task.assignedTo
        else task.assignedTo }
  let newLogs : List TaskLog :=
    if truthyStr body.status || truthyStr body.priority || body.assignedTo.isSome then [entry]
    else []
  let notifs : List Notification :=
    if asChanged && !(body.assignedTo == some actor.id) then
      [{ user := body.assignedTo.getD actor.id, type := "task_assignment",
         message := "You have been assigned to task: " ++ task1.title ++
           " in project " ++ project.name,
         relatedProject := some task.project, relatedTask := some task.id }]
    else []
  (Resp.ok,
    { s with tasks := s.tasks.map (fun u => if u.id == task.id then task1 else u),
             logs := s.logs ++ newLogs,
             events := s.events ++ [SocketEvent.taskUpdated task.project task1],
             notifications := s.notifications ++ notifs })

/-- The `updateTask` handler. -/
def updateTask (s : AppState) (actor : Actor) (taskId : Nat) (body : UpdateTaskBody) :
    Resp × AppState :=
  match findTask s taskId with
  | none => (Resp.notFound "Task not found", s)
  | some task =>
    match findProject s task.project with
    | none => (Resp.notFound "Project not found", s)
    | some project =>
      if !(isProjectMember project actor.id) && !(actor.role == UserRole.admin) then
        (Resp.forbidden "Not authorized to update this task", s)
      else
        updateApply s actor task project body

/-- Valid `status` values (`Object.values(TaskStatus)`). -/
def validStatus (st : String) : Bool :=
  st == "pending" || st == "in-progress" || st == "completed"

/-- The `updateTaskStatus` handler (`PATCH /api/tasks/:id/status`). -/
def updateTaskStatus (s : AppState) (actor : Actor) (taskId : Nat) (status : String) :
    Resp × AppState :=
  if !(validStatus status) then (Resp.badRequest "Invalid status value", s)
  else
    match findTask s taskId with
    | none => (Resp.notFound "Task not found", s)
    | some task =>
      match findProject s task.project with
      | none => (Resp.notFound "Project not found", s)
      | some project =>
        if !(isProjectMember project actor.id) && !(actor.role == UserRole.admin) then
          (Resp.forbidden "Not authorized to update this task", s)
        else
          let task1 : Task := { task with status := status }
          let entry : TaskLog :=
            { task := task.id, user := actor.id,
              previousStatus := some task.status, newStatus := some status,
              message := "Status changed from " ++ task.status ++ " to " ++ status }
          let notifs : List Notification :=
            if !(task.assignedTo == actor.id) then
              [{ user := task.assignedTo, type := "task_update",
                 message := "Task status updated: \"" ++ task.title ++ "\" is now " ++
                   status ++ " in project " ++ project.name,
                 relatedProject := some task.project, relatedTask := some task.id }]
            else []
          (Resp.ok,
            { s with tasks := s.tasks.map (fun u => if u.id == task.id then task1 else u),
                     logs := s.logs ++ [entry],
                     events := s.events ++ [SocketEvent.taskUpdated task.project task1],
                     notifications := s.notifications ++ notifs })

/-- The `deleteTask` handler: delete the task, then delete its logs. -/
def deleteTask (s : AppState) (actor : Actor) (taskId : Nat) : Resp × AppState :=
  match findTask s taskId with
  | none => (Resp.notFound "Task not found", s)
  | some task =>
    match findProject s task.project with
    | none => (Resp.notFound "Project not found", s)
    | some project =>
      if !(project.owner == actor.id) && !(task.createdBy == actor.id) &&
          !(actor.role == UserRole.admin) then
        (Resp.forbidden "Not authorized to delete this task", s)
      else
        (Resp.ok,
          { s with tasks := s.tasks.filter (fun t => !(t.id == taskId)),
                   logs := s.logs.filter (fun e => !(e.task == taskId)),
                   events := s.events ++ [SocketEvent.taskDeleted task.project taskId] })

/-- The `getTaskLogs` handler: the audit log of one work item, most
recent first. -/
def getTaskLogs (s : AppState) (actor : Actor) (taskId : Nat) : Resp × List TaskLog :=
  match findTask s taskId with
  | none => (Resp.notFound "Task not found", [])
  | some task =>
    match findProject s task.project with
    | none => (Resp.notFound "Project not found", [])
    | some project =>
      if !(isProjectMember project actor.id) && !(actor.role == UserRole.admin) then
        (Resp.forbidden "Not authorized to view logs for this task", [])
      else
        (Resp.ok, (s.logs.filter (fun e => e.task == taskId)).reverse)

/-- The `getAllTaskLogs` handler: all audit entries of tasks in projects
the actor owns or is a member of. -/
def getAllTaskLogs (s : AppState) (actor : Actor) : List TaskLog :=
  let projects := s.projects.filter (fun p => p.owner == actor.id || p.members.contains actor.id)
  let projectIds := projects.map (fun p => p.id)
  let tasks := s.tasks.filter (fun t => projectIds.contains t.project)
  let taskIds := tasks.map (fun t => t.id)
  (s.logs.filter (fun e => taskIds.contains e.task)).reverse

/-- Placeholder task used only as the (never reached) default of a
guarded list access. -/
def dummyTask : Task :=
  { id := 0, title := "", description := "", status := "", priority := "",
    project := 0, assignedTo := 0, createdBy := 0, position := none }

/-- The in-memory reordering core of the `reorderTask` handler: remove
the element at `currentPosition` (`splice(currentPosition, 1)`), reinsert
it at `safeNewPosition` (`splice(safeNewPosition, 0, movedTask)`), and
renumber every position sequentially from 0.  The handler only calls this
with `currentPosition < projectTasks.length`, so the `getD` default is
never used. -/
def reorderCore (projectTasks : List Task) (currentPosition safeNewPosition : Nat) :
    List Task :=
  renumberFrom 0
    (insertAt safeNewPosition (projectTasks.getD currentPosition dummyTask)
      (projectTasks.eraseIdx currentPosition))

/-- The task list the reorder handler works on: all project tasks sorted
by position, with the implicit position migration applied when some task
lacks a position. -/
def reorderPT (s : AppState) (projectId : Nat) : List Task :=
  let sorted0 := sortByPosition (projectTasksOf s projectId)
  if sorted0.any (fun t => t.position.isNone) then renumberFrom 0 sorted0 else sorted0

/-- Body of the `reorderTask` handler after the task and project have
been found and the actor authorized. -/
def reorderApply (s : AppState) (actor : Actor) (projectId taskId : Nat) (newPosition : Int) :
    Resp × AppState :=
  let projectTasks := reorderPT s projectId
  let currentPosition := projectTasks.findIdx (fun t => t.id == taskId)
  if currentPosition < projectTasks.length then
    let safeNewPosition := clampPos newPosition projectTasks.length
    let newList := reorderCore projectTasks currentPosition safeNewPosition
    let entry : TaskLog :=
      { task := taskId, user := actor.id,
        message := "Task reordered from position " ++ toString currentPosition ++
          " to " ++ toString safeNewPosition }
    (Resp.okTasks newList,
      { s with tasks := saveTasks s.tasks newList,
               logs := s.logs ++ [entry],
               events := s.events ++ [SocketEvent.tasksReordered projectId newList] })
  else
    (Resp.notFound "Task not found in project tasks", s)

/-- The `reorderTask` handler (`PUT /api/projects/:projectId/tasks/:taskId/reorder`).
`newPosition` is typed as an integer, mirroring the handler's up-front
`typeof newPosition !== 'number'` check. -/
def reorderTask (s : AppState) (actor : Actor) (projectId taskId : Nat) (newPosition : Int) :
    Resp × AppState :=
  match findTask s taskId with
  | none => (Resp.notFound "Task not found", s)
  | some task =>
    if !(task.project == projectId) then
      (Resp.badRequest "Task does not belong to this project", s)
    else
      match findProject s projectId with
      | none => (Resp.notFound "Project not found", s)
      | some project =>
        if !(isProjectMember project actor.id) && !(actor.role == UserRole.admin) then
          (Resp.forbidden "Not authorized to reorder tasks in this project", s)
        else
          reorderApply s actor projectId taskId newPosition

/-- The `createProject` handler: the creator becomes owner, sole member,
and gets the owner role in `memberRoles`. -/
def createProject (s : AppState) (actor : Actor) (name description : String) :
    Resp × AppState :=
  let project : Project :=
    { id := s.nextId, name := name, description := description,
      owner := actor.id, members := [actor.id],
      memberRoles := mapSet [] actor.id "owner" }
  (Resp.created, { s with projects := s.projects ++ [project], nextId := s.nextId + 1 })

/-- Effective member role of an add-member request:
`const memberRole = role || ProjectMemberRole.MEMBER` (a falsy submitted
role defaults to `"member"`). -/
def roleOf : Option String → String
  | some r => if r == "" then "member" else r
  | none => "member"

/-- First authorization check of `addProjectMember`: only the project
owner or a system admin may assign the admin/owner roles. -/
def addAuthDenied1 (project : Project) (actor : Actor) (memberRole : String) : Bool :=
  (memberRole == "admin" || memberRole == "owner") &&
    !(project.owner == actor.id) && !(actor.role == UserRole.admin)

/-- Second authorization check of `addProjectMember`: the member role may
be assigned by the owner, a system admin, or a project admin. -/
def addAuthDenied2 (project : Project) (actor : Actor) (memberRole : String) : Bool :=
  memberRole == "member" && !(project.owner == actor.id) &&
    !(actor.role == UserRole.admin) &&
    !(mapGet project.memberRoles actor.id == some "admin")

/-- The `addProjectMember` handler (`POST /api/projects/:id/members`).
`role` is the optional request-body role string. -/
def addProjectMember (s : AppState) (actor : Actor) (projectId userId : Nat)
    (role : Option String) : Resp × AppState :=
  if !(s.users.contains userId) then (Resp.notFound "User not found", s)
  else
    match findProject s projectId with
    | none => (Resp.notFound "Project not found", s)
    | some project =>
      let memberRole := roleOf role
      if addAuthDenied1 project actor memberRole then
        (Resp.forbidden "Not authorized to assign admin roles to project members", s)
      else if addAuthDenied2 project actor memberRole then
        (Resp.forbidden "Not authorized to add members to this project", s)
      else if project.members.contains userId then
        if !(mapGet project.memberRoles userId == some memberRole) then
          let project1 : Project :=
            { project with memberRoles := mapSet project.memberRoles userId memberRole }
          (Resp.ok,
            { s with
                projects := s.projects.map (fun p => if p.id == projectId then project1 else p),
                events := s.events ++ [SocketEvent.projectUpdated project1],
                notifications := s.notifications ++
                  [{ user := userId, type := "project_invitation",
                     message := "Your role in project \"" ++ project.name ++
                       "\" has been updated to " ++ memberRole,
                     relatedProject := some projectId }] })
        else
          (Resp.badRequest "User is already a member of this project with the same role", s)
      else
        let project1 : Project :=
          { project with members := project.members ++ [userId],
                         memberRoles := mapSet project.memberRoles userId memberRole }
        (Resp.ok,
          { s with
              projects := s.projects.map (fun p => if p.id == projectId then project1 else p),
              events := s.events ++ [SocketEvent.projectUpdated project1],
              notifications := s.notifications ++
                [{ user := userId, type := "project_invitation",
                   message := "You have been added to project: " ++ project.name,
                   relatedProject := some projectId }] })

/-- The `removeProjectMember` handler
(`DELETE /api/projects/:id/members/:memberId`).  Note that it removes the
user from `members` only; `memberRoles` is left untouched, exactly as in
the source. -/
def removeProjectMember (s : AppState) (actor : Actor) (projectId memberId : Nat) :
    Resp × AppState :=
  match findProject s projectId with
  | none => (Resp.notFound "Project not found", s)
  | some project =>
    if !(actor.role == UserRole.admin) && !(project.owner == actor.id) then
      (Resp.forbidden "Not authorized to remove members from this project", s)
    else if project.owner == memberId then
      (Resp.badRequest "Cannot remove project owner from members", s)
    else if !(project.members.contains memberId) then
      (Resp.notFound "User is not a member of this project", s)
    else
      let project1 : Project := { project with members := project.members.erase memberId }
      (Resp.ok,
        { s with
            projects := s.projects.map (fun p => if p.id == projectId then project1 else p),
            events := s.events ++ [SocketEvent.projectUpdated project1] })

/-! Concrete sample data, used to evaluate the operations on explicit
inputs. -/

/-- Sample actor: user 1, the owner of the sample project. -/
def actor1 : Actor := { id := 1, role := UserRole.developer }

/-- Sample actor: user 2, who is neither admin, owner nor member of the
sample project. -/
def actor2 : Actor := { id := 2, role := UserRole.developer }

/-- Sample actor: user 5, a plain member of the member-variant sample
project. -/
def actor5 : Actor := { id := 5, role := UserRole.developer }

/-- Sample work item A at position 0. -/
def taskA : Task :=
  { id := 11, title := "A", description := "a", status := "pending", priority := "medium",
    project := 100, assignedTo := 1, createdBy := 1, position := some 0 }

/-- Sample work item B at position 1. -/
def taskB : Task :=
  { id := 12, title := "B", description := "b", status := "pending", priority := "medium",
    project := 100, assignedTo := 1, createdBy := 1, position := some 1 }

/-- Sample work item C at position 2. -/
def taskC : Task :=
  { id := 13, title := "C", description := "c", status := "pending", priority := "medium",
    project := 100, assignedTo := 1, createdBy := 1, position := some 2 }

/-- Sample project P owned by user 1 with sole member 1. -/
def project1 : Project :=
  { id := 100, name := "P", description := "d", owner := 1, members := [1],
    memberRoles := [(1, "owner")] }

/-- Sample state: project P with work items A, B, C at positions 0, 1, 2. -/
def sampleS : AppState :=
  { users := [1, 2, 3, 4, 5], projects := [project1], tasks := [taskA, taskB, taskC],
    logs := [], notifications := [], events := [], nextId := 200 }

/-- Sample project with an additional plain member, user 5. -/
def project2 : Project :=
  { id := 100, name := "P", description := "d", owner := 1, members := [1, 5],
    memberRoles := [(1, "owner"), (5, "member")] }

/-- Sample state whose project has owner 1 and plain member 5. -/
def sampleSM : AppState :=
  { users := [1, 2, 3, 4, 5], projects := [project2], tasks := [taskA, taskB, taskC],
    logs := [], notifications := [], events := [], nextId := 200 }

/-- Empty initial state with registered users 1 and 4. -/
def state0 : AppState :=
  { users := [1, 4], projects := [], tasks := [], logs := [], notifications := [],
    events := [], nextId := 100 }

/-- State after user 1 creates a project (it gets id 100). -/
def state1 : AppState := (createProject state0 actor1 "P" "d").2

/-- State after user 1 additionally creates a first work item. -/
def state2 : AppState :=
  (createTask state1 actor1 100 { title := "A", description := "a" }).2

/-- State after user 1 additionally creates a second work item. -/
def state3 : AppState :=
  (createTask state2 actor1 100 { title := "B", description := "b" }).2

/-- State after user 1 adds user 4 to the sample project with role admin. -/
def stateAdd4 : AppState :=
  (addProjectMember sampleS actor1 100 4 (some "admin")).2

/-! General lemmas about the embedding. -/

theorem auth_cond_false {a b : Bool} (h : (a || b) = true) : (!a && !b) = false := by
  cases a <;> cases b <;> simp_all

theorem truthyStr_some {o : Option String} (h : truthyStr o = true) (d : String) :
    o = some (o.getD d) := by
  cases o with
  | none => simp [truthyStr] at h
  | some v => simp

theorem find?_map_replace (l : List Task) (i : Nat) (t t1 : Task)
    (hf : l.find? (fun u => u.id == i) = some t) (h1 : t1.id = t.id) :
    (l.map (fun u => if u.id == t.id then t1 else u)).find? (fun u => u.id == i) = some t1 := by
  have hti := List.find?_some hf
  have htid : t.id = i := by simpa using hti
  induction l with
  | nil => simp at hf
  | cons a l ih =>
    rw [List.find?_cons] at hf
    rw [List.map_cons]
    cases hab : (a.id == i) with
    | true =>
      rw [hab] at hf
      obtain rfl : a = t := by simpa using hf
      rw [if_pos (by simp : (a.id == a.id) = true)]
      exact List.find?_cons_of_pos _ (show (t1.id == i) = true by simp [h1, htid])
    | false =>
      rw [hab] at hf
      have haid : a.id ≠ i := by simpa using hab
      rw [if_neg (show ¬((a.id == t.id) = true) by simp [htid, haid])]
      rw [List.find?_cons_of_neg (p := fun u : Task => u.id == i) _ (by simp [haid])]
      exact ih (by simpa using hf)

theorem updateTask_eq (s : AppState) (actor : Actor) (taskId : Nat) (body : UpdateTaskBody)
    (task : Task) (project : Project)
    (hfind : findTask s taskId = some task)
    (hproj : findProject s task.project = some project)
    (hauth : (isProjectMember project actor.id || (actor.role == UserRole.admin)) = true) :
    updateTask s actor taskId body = updateApply s actor task project body := by
  have hcond := auth_cond_false hauth
  simp only [updateTask, hfind, hproj, hcond]
  simp

/-- C10: for `UpdateWorkItem`, a submitted title/description/status/priority
whose value is falsy (empty string or absent) is treated as not submitted
and the stored field keeps its previous value; only truthy submitted
values overwrite the stored fields. -/
theorem C10_falsy_update_fields_ignored
    (s : AppState) (actor : Actor) (taskId : Nat) (body : UpdateTaskBody)
    (task : Task) (project : Project)
    (hfind : findTask s taskId = some task)
    (hproj : findProject s task.project = some project)
    (hauth : (isProjectMember project actor.id || (actor.role == UserRole.admin)) = true) :
    ∃ task1 : Task,
      findTask (updateTask s actor taskId body).2 taskId = some task1 ∧
      (truthyStr body.title = false → task1.title = task.title) ∧
      (truthyStr body.description = false → task1.description = task.description) ∧
      (truthyStr body.status = false → task1.status = task.status) ∧
      (truthyStr body.priority = false → task1.priority = task.priority) ∧
      (truthyStr body.title = true → body.title = some task1.title) ∧
      (truthyStr body.description = true → body.description = some task1.description) ∧
      (truthyStr body.status = true → body.status = some task1.status) ∧
      (truthyStr body.priority = true → body.priority = some task1.priority) := by
  rw [updateTask_eq s actor taskId body task project hfind hproj hauth]
  simp only [updateApply, findTask]
  refine ⟨_, find?_map_replace s.tasks taskId task _ hfind rfl, ?_, ?_, ?_, ?_, ?_, ?_, ?_, ?_⟩
  all_goals intro h
  all_goals simp [h]
  all_goals exact truthyStr_some h _

/-- Witness for C10: updating work item A with an empty-string title and
status in the sample state leaves both fields unchanged. -/
theorem C10_witness :
    findTask sampleS 11 = some taskA ∧
    findProject sampleS taskA.project = some project1 ∧
    (isProjectMember project1 actor1.id || (actor1.role == UserRole.admin)) = true ∧
    ∃ task1 : Task,
      findTask (updateTask sampleS actor1 11
        { title := some "", status := some "" }).2 11 = some task1 ∧
      (truthyStr (some "") = false → task1.title = taskA.title) ∧
      (truthyStr none = false → task1.description = taskA.description) ∧
      (truthyStr (some "") = false → task1.status = taskA.status) ∧
      (truthyStr none = false → task1.priority = taskA.priority) ∧
      (truthyStr (some "") = true → some "" = some task1.title) ∧
      (truthyStr none = true → (none : Option String) = some task1.description) ∧
      (truthyStr (some "") = true → some "" = some task1.status) ∧
      (truthyStr none = true → (none : Option String) = some task1.priority) :=
  ⟨by decide, by decide, by decide,
    C10_falsy_update_fields_ignored sampleS actor1 11
      { title := some "", status := some "" } taskA project1
      (by decide) (by decide) (by decide)⟩

/-- C4 counterexample: submitting `status` with a value equal to the
current one does create exactly one audit entry, but its
previous/new status pair is NOT populated (both are `none`), contradicting
the claim that submitted-but-unchanged fields still yield a populated
before/after pair. -/
theorem C4_counterexample :
    truthyStr (some "pending") = true ∧
    taskA.status = "pending" ∧
    (updateTask sampleS actor1 11 { status := some "pending" }).2.logs =
      [{ task := 11, user := 1, message := "Task updated" }] ∧
    (∀ e ∈ (updateTask sampleS actor1 11 { status := some "pending" }).2.logs,
      e.previousStatus = none ∧ e.newStatus = none) := by
  decide

/-- C4 (amended): every `UpdateWorkItem` that submits any of
status/priority/assignee creates exactly one new audit entry; the
previous/new pair of a tracked field is populated exactly when the field
was submitted with a value that differs from the current one, and is left
empty when the field was not submitted or the submitted value equals the
current one. -/
theorem C4_submitted_fields_audit
    (s : AppState) (actor : Actor) (taskId : Nat) (body : UpdateTaskBody)
    (task : Task) (project : Project)
    (hfind : findTask s taskId = some task)
    (hproj : findProject s task.project = some project)
    (hauth : (isProjectMember project actor.id || (actor.role == UserRole.admin)) = true)
    (hsub : (truthyStr body.status || truthyStr body.priority || body.assignedTo.isSome) = true) :
    ∃ entry : TaskLog,
      (updateTask s actor taskId body).2.logs = s.logs ++ [entry] ∧
      entry.task = task.id ∧ entry.user = actor.id ∧
      ((truthyStr body.status = true ∧ body.status ≠ some task.status) →
        entry.previousStatus = some task.status ∧ entry.newStatus = body.status) ∧
      ((truthyStr body.status = false ∨ body.status = some task.status) →
        entry.previousStatus = none ∧ entry.newStatus = none) ∧
      ((truthyStr body.priority = true ∧ body.priority ≠ some task.priority) →
        entry.previousPriority = some task.priority ∧ entry.newPriority = body.priority) ∧
      ((truthyStr body.priority = false ∨ body.priority = some task.priority) →
        entry.previousPriority = none ∧ entry.newPriority = none) ∧
      ((body.assignedTo.isSome = true ∧ body.assignedTo ≠ some task.assignedTo) →
        entry.previousAssignee = some task.assignedTo ∧ entry.newAssignee = body.assignedTo) ∧
      ((body.assignedTo.isSome = false ∨ body.assignedTo = some task.assignedTo) →
        entry.previousAssignee = none ∧ entry.newAssignee = none) := by
  rw [updateTask_eq s actor taskId body task project hfind hproj hauth]
  simp only [updateApply, hsub, if_true]
  refine ⟨_, rfl, rfl, rfl, ?_, ?_, ?_, ?_, ?_, ?_⟩
  · rintro ⟨h1, h2⟩
    constructor <;> simp [h1, h2]
  · rintro (h | h)
    · constructor <;> simp [h]
    · constructor <;> simp [h]
  · rintro ⟨h1, h2⟩
    constructor <;> simp [h1, h2]
  · rintro (h | h)
    · constructor <;> simp [h]
    · constructor <;> simp [h]
  · rintro ⟨h1, h2⟩
    constructor <;> simp [h1, h2]
  · rintro (h | h)
    · constructor <;> simp [h]
    · constructor <;> simp [h]

/-- Witness for C4 (amended): user 1 submits an unchanged status together
with a changed priority on work item A. -/
theorem C4_submitted_fields_audit_witness :
    findTask sampleS 11 = some taskA ∧
    findProject sampleS taskA.project = some project1 ∧
    (isProjectMember project1 actor1.id || (actor1.role == UserRole.admin)) = true ∧
    (truthyStr (some "pending") || truthyStr (some "high") ||
      (none : Option Nat).isSome) = true ∧
    ∃ entry : TaskLog,
      (updateTask sampleS actor1 11
        { status := some "pending", priority := some "high" }).2.logs =
        sampleS.logs ++ [entry] ∧
      entry.task = taskA.id ∧ entry.user = actor1.id ∧
      ((truthyStr (some "pending") = true ∧ some "pending" ≠ some taskA.status) →
        entry.previousStatus = some taskA.status ∧ entry.newStatus = some "pending") ∧
      ((truthyStr (some "pending") = false ∨ (some "pending" : Option String) = some taskA.status) →
        entry.previousStatus = none ∧ entry.newStatus = none) ∧
      ((truthyStr (some "high") = true ∧ some "high" ≠ some taskA.priority) →
        entry.previousPriority = some taskA.priority ∧ entry.newPriority = some "high") ∧
      ((truthyStr (some "high") = false ∨ (some "high" : Option String) = some taskA.priority) →
        entry.previousPriority = none ∧ entry.newPriority = none) ∧
      (((none : Option Nat).isSome = true ∧ (none : Option Nat) ≠ some taskA.assignedTo) →
        entry.previousAssignee = some taskA.assignedTo ∧ entry.newAssignee = none) ∧
      (((none : Option Nat).isSome = false ∨ (none : Option Nat) = some taskA.assignedTo) →
        entry.previousAssignee = none ∧ entry.newAssignee = none) :=
  ⟨by decide, by decide, by decide, by decide,
    C4_submitted_fields_audit sampleS actor1 11
      { status := some "pending", priority := some "high" } taskA project1
      (by decide) (by decide) (by decide) (by decide)⟩

/-- C9: when an authorized update changes the assignee to a user other
than the actor, exactly one task_assignment notification for that user is
created and exactly one task-updated event is published to the project's
topic; when the submitted assignee is absent, unchanged, or the actor
themselves, no notification is created (while the single task-updated
event is still published). -/
theorem C9_assignment_notification
    (s : AppState) (actor : Actor) (taskId : Nat) (body : UpdateTaskBody)
    (task : Task) (project : Project)
    (hfind : findTask s taskId = some task)
    (hproj : findProject s task.project = some project)
    (hauth : (isProjectMember project actor.id || (actor.role == UserRole.admin)) = true) :
    (∀ u3 : Nat, body.assignedTo = some u3 → u3 ≠ task.assignedTo → u3 ≠ actor.id →
      ∃ n : Notification,
        (updateTask s actor taskId body).2.notifications = s.notifications ++ [n] ∧
        n.type = "task_assignment" ∧ n.user = u3) ∧
    (∃ t1 : Task,
      (updateTask s actor taskId body).2.events =
        s.events ++ [SocketEvent.taskUpdated task.project t1]) ∧
    ((body.assignedTo = none ∨ body.assignedTo = some task.assignedTo ∨
        body.assignedTo = some actor.id) →
      (updateTask s actor taskId body).2.notifications = s.notifications) := by
  rw [updateTask_eq s actor taskId body task project hfind hproj hauth]
  simp only [updateApply]
  refine ⟨?_, ⟨_, rfl⟩, ?_⟩
  · intro u3 h1 h2 h3
    simp only [h1]
    rw [if_pos]
    · exact ⟨_, rfl, rfl, rfl⟩
    · simp [h2, h3]
  · rintro (h | h | h) <;> simp [h]

/-- Witness for C9: the owner reassigns work item A to user 3. -/
theorem C9_assignment_notification_witness :
    findTask sampleS 11 = some taskA ∧
    findProject sampleS taskA.project = some project1 ∧
    (isProjectMember project1 actor1.id || (actor1.role == UserRole.admin)) = true ∧
    ((∀ u3 : Nat, (some 3 : Option Nat) = some u3 → u3 ≠ taskA.assignedTo → u3 ≠ actor1.id →
      ∃ n : Notification,
        (updateTask sampleS actor1 11 { assignedTo := some 3 }).2.notifications =
          sampleS.notifications ++ [n] ∧
        n.type = "task_assignment" ∧ n.user = u3) ∧
    (∃ t1 : Task,
      (updateTask sampleS actor1 11 { assignedTo := some 3 }).2.events =
        sampleS.events ++ [SocketEvent.taskUpdated taskA.project t1]) ∧
    (((some 3 : Option Nat) = none ∨ (some 3 : Option Nat) = some taskA.assignedTo ∨
        (some 3 : Option Nat) = some actor1.id) →
      (updateTask sampleS actor1 11 { assignedTo := some 3 }).2.notifications =
        sampleS.notifications)) :=
  ⟨by decide, by decide, by decide,
    C9_assignment_notification sampleS actor1 11 { assignedTo := some 3 } taskA project1
      (by decide) (by decide) (by decide)⟩

theorem deny3_true {a b c : Bool} (h1 : a = false) (h2 : b = false) (h3 : c = false) :
    (!a && !b && !c) = true := by
  simp [h1, h2, h3]

theorem deny3_false {a b c : Bool} (h : (a || b || c) = true) : (!a && !b && !c) = false := by
  cases a <;> cases b <;> cases c <;> simp_all

/-- C7: an actor who is neither a system admin, nor the project owner,
nor in the project's members gets Forbidden from every mutating work-item
operation, and the state (work items, positions, audit log, events,
notifications) is completely unchanged. -/
theorem C7_outsider_forbidden
    (s : AppState) (actor : Actor) (taskId : Nat) (task : Task) (project : Project)
    (body : UpdateTaskBody) (cbody : CreateTaskBody) (st : String) (np : Int)
    (hfind : findTask s taskId = some task)
    (hproj : task.project = project.id)
    (hp : findProject s project.id = some project)
    (hadmin : actor.role ≠ UserRole.admin)
    (hmem : project.members.contains actor.id = false)
    (hown : project.owner ≠ actor.id)
    (hst : validStatus st = true) :
    updateTask s actor taskId body = (Resp.forbidden "Not authorized to update this task", s) ∧
    updateTaskStatus s actor taskId st =
      (Resp.forbidden "Not authorized to update this task", s) ∧
    reorderTask s actor project.id taskId np =
      (Resp.forbidden "Not authorized to reorder tasks in this project", s) ∧
    createTask s actor project.id cbody =
      (Resp.forbidden "Not authorized to create tasks in this project", s) := by
  have hm : isProjectMember project actor.id = false := by
    simp only [isProjectMember, hmem, Bool.false_or]
    simp [hown]
  have hr : (actor.role == UserRole.admin) = false := by
    simp [hadmin]
  have hcond : (!(isProjectMember project actor.id) && !(actor.role == UserRole.admin)) = true := by
    simp [hm, hr]
  refine ⟨?_, ?_, ?_, ?_⟩
  · simp only [updateTask, hfind, hproj, hp, hcond, if_true]
  · simp only [updateTaskStatus, hst, Bool.not_true, Bool.false_eq_true, if_false,
      hfind, hproj, hp, hcond, if_true]
  · simp only [reorderTask, hfind, hproj, hp, hcond, if_true, beq_self_eq_true,
      Bool.not_true, Bool.false_eq_true, if_false]
  · simp only [createTask, hp, hcond, if_true]

/-- Witness for C7: user 2 is not a member of the sample project and is
denied on all four mutating operations. -/
theorem C7_outsider_forbidden_witness :
    findTask sampleS 11 = some taskA ∧
    taskA.project = project1.id ∧
    findProject sampleS project1.id = some project1 ∧
    actor2.role ≠ UserRole.admin ∧
    project1.members.contains actor2.id = false ∧
    project1.owner ≠ actor2.id ∧
    validStatus "completed" = true ∧
    (updateTask sampleS actor2 11 { title := some "x" } =
      (Resp.forbidden "Not authorized to update this task", sampleS) ∧
    updateTaskStatus sampleS actor2 11 "completed" =
      (Resp.forbidden "Not authorized to update this task", sampleS) ∧
    reorderTask sampleS actor2 project1.id 11 0 =
      (Resp.forbidden "Not authorized to reorder tasks in this project", sampleS) ∧
    createTask sampleS actor2 project1.id { title := "t", description := "d" } =
      (Resp.forbidden "Not authorized to create tasks in this project", sampleS)) :=
  ⟨by decide, by decide, by decide, by decide, by decide, by decide, by decide,
    C7_outsider_forbidden sampleS actor2 11 taskA project1
      { title := some "x" } { title := "t", description := "d" } "completed" 0
      (by decide) (by decide) (by decide) (by decide) (by decide) (by decide) (by decide)⟩

/-- C8: deleting a work item succeeds exactly for the project owner, the
item's creator, or a system admin (everyone else gets Forbidden with the
state unchanged); a successful deletion removes the work item and all of
its audit entries, so no audit-log query can return them. -/
theorem C8_delete_authorization_and_cascade
    (s : AppState) (actor : Actor) (taskId : Nat) (task : Task) (project : Project)
    (hfind : findTask s taskId = some task)
    (hp : findProject s task.project = some project) :
    (((project.owner == actor.id) || (task.createdBy == actor.id) ||
        (actor.role == UserRole.admin)) = true →
      (deleteTask s actor taskId).1 = Resp.ok ∧
      findTask (deleteTask s actor taskId).2 taskId = none ∧
      (∀ e ∈ (deleteTask s actor taskId).2.logs, e.task ≠ taskId) ∧
      (∀ actor2 : Actor, ∀ e ∈ getAllTaskLogs (deleteTask s actor taskId).2 actor2,
        e.task ≠ taskId) ∧
      (∀ actor2 : Actor, (getTaskLogs (deleteTask s actor taskId).2 actor2 taskId).2 = [])) ∧
    (((project.owner == actor.id) || (task.createdBy == actor.id) ||
        (actor.role == UserRole.admin)) = false →
      deleteTask s actor taskId = (Resp.forbidden "Not authorized to delete this task", s)) := by
  constructor
  · intro hallow
    have hcond := deny3_false hallow
    have hdel : deleteTask s actor taskId =
        (Resp.ok,
          { s with tasks := s.tasks.filter (fun t => !(t.id == taskId)),
                   logs := s.logs.filter (fun e => !(e.task == taskId)),
                   events := s.events ++ [SocketEvent.taskDeleted task.project taskId] }) := by
      simp only [deleteTask, hfind, hp, hcond, Bool.false_eq_true, if_false]
    rw [hdel]
    have hnone : (s.tasks.filter (fun t => !(t.id == taskId))).find?
        (fun t => t.id == taskId) = none := by
      rw [List.find?_eq_none]
      intro x hx
      have := (List.mem_filter.mp hx).2
      simpa using this
    refine ⟨rfl, hnone, ?_, ?_, ?_⟩
    · intro e he
      have := (List.mem_filter.mp he).2
      simpa using this
    · intro actor2 e he
      simp only [getAllTaskLogs, List.mem_reverse] at he
      have h2 := (List.mem_filter.mp he).1
      have := (List.mem_filter.mp h2).2
      simpa using this
    · intro actor2
      simp only [getTaskLogs, findTask, hnone]
  · intro hdeny
    have ho : (project.owner == actor.id) = false := by
      cases h1 : (project.owner == actor.id) <;> simp_all
    have hc : (task.createdBy == actor.id) = false := by
      cases h1 : (task.createdBy == actor.id) <;> simp_all
    have ha : (actor.role == UserRole.admin) = false := by
      cases h1 : (actor.role == UserRole.admin) <;> simp_all
    have hcond := deny3_true ho hc ha
    simp only [deleteTask, hfind, hp, hcond, if_true]

/-- Witness for C8: the creator (and owner) deletes work item A and its
log entries become unreachable; an outsider is denied. -/
theorem C8_delete_authorization_and_cascade_witness :
    findTask sampleS 11 = some taskA ∧
    findProject sampleS taskA.project = some project1 ∧
    ((((project1.owner == actor1.id) || (taskA.createdBy == actor1.id) ||
        (actor1.role == UserRole.admin)) = true →
      (deleteTask sampleS actor1 11).1 = Resp.ok ∧
      findTask (deleteTask sampleS actor1 11).2 11 = none ∧
      (∀ e ∈ (deleteTask sampleS actor1 11).2.logs, e.task ≠ 11) ∧
      (∀ actor2 : Actor, ∀ e ∈ getAllTaskLogs (deleteTask sampleS actor1 11).2 actor2,
        e.task ≠ 11) ∧
      (∀ actor2 : Actor, (getTaskLogs (deleteTask sampleS actor1 11).2 actor2 11).2 = [])) ∧
    (((project1.owner == actor1.id) || (taskA.createdBy == actor1.id) ||
        (actor1.role == UserRole.admin)) = false →
      deleteTask sampleS actor1 11 =
        (Resp.forbidden "Not authorized to delete this task", sampleS))) :=
  ⟨by decide, by decide,
    C8_delete_authorization_and_cascade sampleS actor1 11 taskA project1
      (by decide) (by decide)⟩

/-- C6 counterexample: adding the same user with an identical role twice
makes the second call fail with the generic 400 bad-request response (the
same response category used for input-validation failures, illustrated by
the owner-removal validation error), not a distinct Conflict category.
The state is unchanged, so no duplicate membership arises. -/
theorem C6_counterexample :
    (addProjectMember sampleS actor1 100 4 (some "admin")).1 = Resp.ok ∧
    addProjectMember stateAdd4 actor1 100 4 (some "admin") =
      (Resp.badRequest "User is already a member of this project with the same role",
        stateAdd4) ∧
    (addProjectMember stateAdd4 actor1 100 4 (some "admin")).1.statusCode = 400 ∧
    (removeProjectMember stateAdd4 actor1 100 1).1 =
      Resp.badRequest "Cannot remove project owner from members" ∧
    (removeProjectMember stateAdd4 actor1 100 1).1.statusCode = 400 := by
  decide

/-- C6 (amended): when the project owner re-adds an existing member with
an identical role, the call is rejected with the 400 bad-request response
"User is already a member of this project with the same role" — the same
response category as input-validation errors, not a distinct Conflict —
and the state is completely unchanged, so no duplicate membership is
created. -/
theorem C6_duplicate_member_bad_request
    (s : AppState) (actor : Actor) (projectId userId : Nat) (r : String) (project : Project)
    (huser : s.users.contains userId = true)
    (hp : findProject s projectId = some project)
    (howner : project.owner = actor.id)
    (hmem : project.members.contains userId = true)
    (hrole : mapGet project.memberRoles userId = some r)
    (hr : (r == "") = false) :
    addProjectMember s actor projectId userId (some r) =
      (Resp.badRequest "User is already a member of this project with the same role", s) := by
  have hio : (project.owner == actor.id) = true := by simp [howner]
  have hu2 : userId ∈ s.users := List.elem_iff.mp huser
  have hm2 : userId ∈ project.members := List.elem_iff.mp hmem
  simp [addProjectMember, addAuthDenied1, addAuthDenied2, roleOf, huser, hp, hio, hmem,
    hrole, hr, hu2, hm2]

/-- Witness for C6 (amended): re-adding user 4 with the identical role
admin after a successful first add. -/
theorem C6_duplicate_member_bad_request_witness :
    stateAdd4.users.contains 4 = true ∧
    (∃ project : Project, findProject stateAdd4 100 = some project ∧
      project.owner = actor1.id ∧
      project.members.contains 4 = true ∧
      mapGet project.memberRoles 4 = some "admin") ∧
    ("admin" == "") = false ∧
    addProjectMember stateAdd4 actor1 100 4 (some "admin") =
      (Resp.badRequest "User is already a member of this project with the same role",
        stateAdd4) :=
  ⟨by decide,
    ⟨{ project1 with members := [1, 4], memberRoles := [(1, "owner"), (4, "admin")] },
      by decide, by decide, by decide, by decide⟩,
    by decide,
    C6_duplicate_member_bad_request stateAdd4 actor1 100 4 "admin"
      { project1 with members := [1, 4], memberRoles := [(1, "owner"), (4, "admin")] }
      (by decide) (by decide) (by decide) (by decide) (by decide) (by decide)⟩

theorem findProject_map_replace (l : List Project) (i : Nat) (p1 : Project)
    (hf : ∃ q ∈ l, q.id = i) (h1 : p1.id = i) :
    (l.map (fun p => if p.id == i then p1 else p)).find? (fun p => p.id == i) = some p1 := by
  induction l with
  | nil => simp at hf
  | cons a l ih =>
    rw [List.map_cons]
    cases hab : (a.id == i) with
    | true =>
      have hhead : (if (true = true) then p1 else a) = p1 := if_pos rfl
      rw [hhead]
      exact List.find?_cons_of_pos _ (show (p1.id == i) = true by simp [h1])
    | false =>
      have hhead : (if (false = true) then p1 else a) = a := if_neg (by simp)
      rw [hhead]
      rw [List.find?_cons_of_neg (p := fun p : Project => p.id == i) _ (by simp [hab])]
      apply ih
      obtain ⟨q, hq, hqi⟩ := hf
      rcases List.mem_cons.mp hq with rfl | hql
      · simp [hqi] at hab
      · exact ⟨q, hql, hqi⟩

theorem mem_mapKeys_iff_any (m : List (Nat × String)) (k : Nat) :
    k ∈ mapKeys m ↔ (m.any (fun e => e.fst == k)) = true := by
  simp [mapKeys, List.any_eq_true, List.mem_map]

theorem mapKeys_mapSet_of_mem (m : List (Nat × String)) (k : Nat) (v : String)
    (h : (m.any (fun e => e.fst == k)) = true) :
    mapKeys (mapSet m k v) = mapKeys m := by
  simp only [mapSet, if_pos h, mapKeys, List.map_map]
  apply List.map_congr_left
  intro e he
  by_cases hek : (e.fst == k) = true
  · have hk : e.fst = k := by simpa using hek
    simp [Function.comp, hek, hk]
  · simp [Function.comp, hek]

theorem mapKeys_mapSet_of_not_mem (m : List (Nat × String)) (k : Nat) (v : String)
    (h : (m.any (fun e => e.fst == k)) = false) :
    mapKeys (mapSet m k v) = mapKeys m ++ [k] := by
  simp only [mapSet]
  rw [if_neg (by simp [h])]
  simp [mapKeys]

theorem addProjectMember_role_change
    (s : AppState) (actor : Actor) (projectId userId : Nat) (role : Option String)
    (project : Project)
    (hu : s.users.contains userId = true)
    (hp : findProject s projectId = some project)
    (hc1 : addAuthDenied1 project actor (roleOf role) = false)
    (hc2 : addAuthDenied2 project actor (roleOf role) = false)
    (hmem : project.members.contains userId = true)
    (hch : (mapGet project.memberRoles userId == some (roleOf role)) = false) :
    (addProjectMember s actor projectId userId role).1 = Resp.ok ∧
    (addProjectMember s actor projectId userId role).2.projects =
      s.projects.map (fun p => if p.id == projectId then
        { project with memberRoles := mapSet project.memberRoles userId (roleOf role) }
        else p) := by
  have hu2 : userId ∈ s.users := List.elem_iff.mp hu
  have hm2 : userId ∈ project.members := List.elem_iff.mp hmem
  constructor <;> simp [addProjectMember, hu, hp, hc1, hc2, hmem, hch, hu2, hm2]

theorem addProjectMember_new_member
    (s : AppState) (actor : Actor) (projectId userId : Nat) (role : Option String)
    (project : Project)
    (hu : s.users.contains userId = true)
    (hp : findProject s projectId = some project)
    (hc1 : addAuthDenied1 project actor (roleOf role) = false)
    (hc2 : addAuthDenied2 project actor (roleOf role) = false)
    (hmem : project.members.contains userId = false) :
    (addProjectMember s actor projectId userId role).1 = Resp.ok ∧
    (addProjectMember s actor projectId userId role).2.projects =
      s.projects.map (fun p => if p.id == projectId then
        { project with members := project.members ++ [userId],
                       memberRoles := mapSet project.memberRoles userId (roleOf role) }
        else p) := by
  have hu2 : userId ∈ s.users := List.elem_iff.mp hu
  have hm2 : userId ∉ project.members := by simpa using hmem
  constructor <;> simp [addProjectMember, hu, hp, hc1, hc2, hmem, hu2, hm2]

theorem removeProjectMember_success
    (s : AppState) (actor : Actor) (projectId memberId : Nat) (project : Project)
    (hp : findProject s projectId = some project)
    (howner : project.owner = actor.id)
    (hne : project.owner ≠ memberId)
    (hmem : project.members.contains memberId = true) :
    (removeProjectMember s actor projectId memberId).1 = Resp.ok ∧
    (removeProjectMember s actor projectId memberId).2.projects =
      s.projects.map (fun p => if p.id == projectId then
        { project with members := project.members.erase memberId } else p) := by
  have hio : (project.owner == actor.id) = true := by simp [howner]
  have hm2 : memberId ∈ project.members := List.elem_iff.mp hmem
  constructor <;> simp [removeProjectMember, hp, hio, hne, hmem, hm2]

theorem project_id_of_find (s : AppState) (projectId : Nat) (project : Project)
    (hp : findProject s projectId = some project) : project.id = projectId := by
  have := List.find?_some hp
  simpa using this

/-- C5 counterexample: after the owner removes member 5 from the sample
project, user 5 is no longer in `members` but still has an entry in
`memberRoles`, so the key set of `memberRoles` no longer equals the
member set. -/
theorem C5_counterexample :
    (removeProjectMember sampleSM actor1 100 5).1 = Resp.ok ∧
    findProject (removeProjectMember sampleSM actor1 100 5).2 100 =
      some { project2 with members := [1] } ∧
    5 ∈ mapKeys ({ project2 with members := [1] } : Project).memberRoles ∧
    5 ∉ ({ project2 with members := [1] } : Project).members := by
  decide

/-- C5 (amended): creating a project establishes the equality between the
key set of `memberRoles` and `members`, and adding a member (either as a
new membership or by changing the role of an existing member) preserves
it; but removing a member only removes the user from `members` and leaves
`memberRoles` untouched, so the removed user's role entry persists and
the equality is broken. -/
theorem C5_membership_roles_sync (s : AppState) (actor : Actor) :
    (∀ name description : String, ∃ p : Project,
      (createProject s actor name description).2.projects = s.projects ++ [p] ∧
      rolesMatchMembers p) ∧
    (∀ (projectId userId : Nat) (role : Option String) (project : Project),
      s.users.contains userId = true →
      findProject s projectId = some project →
      addAuthDenied1 project actor (roleOf role) = false →
      addAuthDenied2 project actor (roleOf role) = false →
      rolesMatchMembers project →
      ∃ p1 : Project,
        findProject (addProjectMember s actor projectId userId role).2 projectId = some p1 ∧
        ((addProjectMember s actor projectId userId role).1 = Resp.ok →
          rolesMatchMembers p1)) ∧
    (∀ (projectId memberId : Nat) (project : Project),
      findProject s projectId = some project →
      project.owner = actor.id →
      project.owner ≠ memberId →
      project.members.contains memberId = true →
      ∃ p1 : Project,
        findProject (removeProjectMember s actor projectId memberId).2 projectId = some p1 ∧
        p1.members = project.members.erase memberId ∧
        p1.memberRoles = project.memberRoles) := by
  refine ⟨?_, ?_, ?_⟩
  · intro name description
    refine ⟨{ id := s.nextId, name := name, description := description,
              owner := actor.id, members := [actor.id],
              memberRoles := mapSet [] actor.id "owner" }, rfl, ?_⟩
    constructor
    · intro u hu
      simp [mapKeys, mapSet] at hu
      simp [hu]
    · intro u hu
      simp at hu
      simp [mapKeys, mapSet, hu]
  · intro projectId userId role project hu hp hc1 hc2 hInv
    have hpid : project.id = projectId := project_id_of_find s projectId project hp
    have hex : ∃ q ∈ s.projects, q.id = projectId :=
      ⟨project, List.mem_of_find?_eq_some hp, hpid⟩
    cases hmem : project.members.contains userId with
    | true =>
      cases hch : (mapGet project.memberRoles userId == some (roleOf role)) with
      | false =>
        obtain ⟨hok, hprojs⟩ :=
          addProjectMember_role_change s actor projectId userId role project
            hu hp hc1 hc2 hmem hch
        refine ⟨{ project with memberRoles := mapSet project.memberRoles userId (roleOf role) },
          ?_, fun _ => ?_⟩
        · rw [findProject, hprojs]
          exact findProject_map_replace s.projects projectId _ hex hpid
        · have hkeys : mapKeys (mapSet project.memberRoles userId (roleOf role)) =
              mapKeys project.memberRoles := by
            apply mapKeys_mapSet_of_mem
            rw [← mem_mapKeys_iff_any]
            exact hInv.2 userId (List.elem_iff.mp hmem)
          exact ⟨fun u h => hInv.1 u (by simpa [hkeys] using h),
            fun u h => by simpa [hkeys] using hInv.2 u h⟩
      | true =>
        refine ⟨project, ?_, fun hok => ?_⟩
        · have heq : addProjectMember s actor projectId userId role =
              (Resp.badRequest "User is already a member of this project with the same role",
                s) := by
            have hu2 : userId ∈ s.users := List.elem_iff.mp hu
            have hm2 : userId ∈ project.members := List.elem_iff.mp hmem
            simp [addProjectMember, hu, hp, hc1, hc2, hmem, hch, hu2, hm2]
          rw [heq]
          exact hp
        · exfalso
          have heq : (addProjectMember s actor projectId userId role).1 =
              Resp.badRequest "User is already a member of this project with the same role" := by
            have hu2 : userId ∈ s.users := List.elem_iff.mp hu
            have hm2 : userId ∈ project.members := List.elem_iff.mp hmem
            simp [addProjectMember, hu, hp, hc1, hc2, hmem, hch, hu2, hm2]
          rw [heq] at hok
          exact Resp.noConfusion hok
    | false =>
      obtain ⟨hok, hprojs⟩ :=
        addProjectMember_new_member s actor projectId userId role project hu hp hc1 hc2 hmem
      refine ⟨{ project with members := project.members ++ [userId], memberRoles := mapSet project.memberRoles userId (roleOf role) }, ?_, fun _ => ?_⟩
      · rw [findProject, hprojs]
        exact findProject_map_replace s.projects projectId _ hex hpid
      · have hnotmem : userId ∉ project.members := by simpa using hmem
        have hnotkey : (project.memberRoles.any (fun e => e.fst == userId)) = false := by
          cases hany : (project.memberRoles.any (fun e => e.fst == userId)) with
          | false => rfl
          | true =>
            exact absurd (hInv.1 userId ((mem_mapKeys_iff_any _ _).mpr hany)) hnotmem
        have hkeys := mapKeys_mapSet_of_not_mem project.memberRoles userId (roleOf role) hnotkey
        constructor
        · intro u h
          simp only [hkeys, List.mem_append] at h
          rcases h with h | h
          · simp [List.mem_append]
            exact Or.inl (hInv.1 u h)
          · simp at h
            simp [List.mem_append, h]
        · intro u h
          simp only [List.mem_append] at h
          simp only [hkeys, List.mem_append]
          rcases h with h | h
          · exact Or.inl (hInv.2 u h)
          · simp at h
            simp [h]
  · intro projectId memberId project hp howner hne hmem
    have hpid : project.id = projectId := project_id_of_find s projectId project hp
    have hex : ∃ q ∈ s.projects, q.id = projectId :=
      ⟨project, List.mem_of_find?_eq_some hp, hpid⟩
    obtain ⟨hok, hprojs⟩ :=
      removeProjectMember_success s actor projectId memberId project hp howner hne hmem
    refine ⟨{ project with members := project.members.erase memberId }, ?_, rfl, rfl⟩
    rw [findProject, hprojs]
    exact findProject_map_replace s.projects projectId _ hex hpid

/-- Witness for C5 (amended): instantiated in the sample state with the
owner as actor; the add part is exercised with new member 4 as admin and
the remove part with member 5. -/
theorem C5_membership_roles_sync_witness :
    (∃ p : Project,
      (createProject sampleSM actor1 "Q" "e").2.projects = sampleSM.projects ++ [p] ∧
      rolesMatchMembers p) ∧
    (sampleSM.users.contains 4 = true ∧
      findProject sampleSM 100 = some project2 ∧
      addAuthDenied1 project2 actor1 (roleOf (some "admin")) = false ∧
      addAuthDenied2 project2 actor1 (roleOf (some "admin")) = false ∧
      rolesMatchMembers project2 ∧
      ∃ p1 : Project,
        findProject (addProjectMember sampleSM actor1 100 4 (some "admin")).2 100 = some p1 ∧
        ((addProjectMember sampleSM actor1 100 4 (some "admin")).1 = Resp.ok →
          rolesMatchMembers p1)) ∧
    (findProject sampleSM 100 = some project2 ∧
      project2.owner = actor1.id ∧
      project2.owner ≠ 5 ∧
      project2.members.contains 5 = true ∧
      ∃ p1 : Project,
        findProject (removeProjectMember sampleSM actor1 100 5).2 100 = some p1 ∧
        p1.members = project2.members.erase 5 ∧
        p1.memberRoles = project2.memberRoles) :=
  ⟨(C5_membership_roles_sync sampleSM actor1).1 "Q" "e",
   ⟨by decide, by decide, by decide, by decide, by decide,
    (C5_membership_roles_sync sampleSM actor1).2.1 100 4 (some "admin") project2
      (by decide) (by decide) (by decide) (by decide) (by decide)⟩,
   ⟨by decide, by decide, by decide, by decide,
    (C5_membership_roles_sync sampleSM actor1).2.2 100 5 project2
      (by decide) (by decide) (by decide) (by decide)⟩⟩

/-! Structural lemmas about the reorder building blocks. -/

theorem renumberFrom_map_id (i : Nat) (l : List Task) :
    (renumberFrom i l).map Task.id = l.map Task.id := by
  induction l generalizing i with
  | nil => rfl
  | cons t l ih => simp [renumberFrom, ih]

theorem renumberFrom_map_pairs (i : Nat) (l : List Task) :
    (renumberFrom i l).map (fun t => (t.id, t.project)) =
      l.map (fun t => (t.id, t.project)) := by
  induction l generalizing i with
  | nil => rfl
  | cons t l ih => simp [renumberFrom, ih]

theorem renumberFrom_length (i : Nat) (l : List Task) :
    (renumberFrom i l).length = l.length := by
  induction l generalizing i with
  | nil => rfl
  | cons t l ih => simp [renumberFrom, ih]

theorem renumberFrom_map_position (i : Nat) (l : List Task) :
    (renumberFrom i l).map Task.position = (List.range' i l.length).map some := by
  induction l generalizing i with
  | nil => rfl
  | cons t l ih => simp [renumberFrom, ih, List.range']

theorem renumberFrom_getElem? (k : Nat) (l : List Task) (i : Nat) :
    (renumberFrom k l)[i]? = (l[i]?).map (fun t => { t with position := some (k + i) }) := by
  induction l generalizing k i with
  | nil => simp [renumberFrom]
  | cons t l ih =>
    cases i with
    | zero => simp [renumberFrom]
    | succ i2 =>
      have harith : k + 1 + i2 = k + (i2 + 1) := by omega
      simp [renumberFrom, List.getElem?_cons_succ, ih (k + 1) i2, harith]

theorem insertAt_perm (i : Nat) (a : Task) (l : List Task) :
    (insertAt i a l).Perm (a :: l) := by
  induction l generalizing i with
  | nil =>
    cases i with
    | zero => exact List.Perm.refl _
    | succ j => exact List.Perm.refl _
  | cons b l ih =>
    cases i with
    | zero => exact List.Perm.refl _
    | succ j =>
      show (b :: insertAt j a l).Perm (a :: b :: l)
      exact (List.Perm.cons b (ih j)).trans (List.Perm.swap a b l)

theorem insertAt_length (i : Nat) (a : Task) (l : List Task) :
    (insertAt i a l).length = l.length + 1 := by
  have := (insertAt_perm i a l).length_eq
  simpa using this

theorem insertAt_getElem? (i : Nat) (a : Task) (l : List Task) (h : i ≤ l.length) :
    (insertAt i a l)[i]? = some a := by
  induction l generalizing i with
  | nil =>
    have : i = 0 := by simpa using h
    subst this
    rfl
  | cons b l ih =>
    cases i with
    | zero => rfl
    | succ j =>
      show (b :: insertAt j a l)[j + 1]? = some a
      rw [List.getElem?_cons_succ]
      exact ih j (by simpa using h)

theorem get_cons_eraseIdx_perm (l : List Task) (i : Nat) (h : i < l.length) :
    ((l.get ⟨i, h⟩) :: l.eraseIdx i).Perm l := by
  induction l generalizing i with
  | nil => simp at h
  | cons b l ih =>
    cases i with
    | zero => exact List.Perm.refl _
    | succ j =>
      have hj : j < l.length := by simpa using h
      show ((l.get ⟨j, hj⟩) :: b :: l.eraseIdx j).Perm (b :: l)
      exact (List.Perm.swap b (l.get ⟨j, hj⟩) (l.eraseIdx j)).trans
        (List.Perm.cons b (ih j hj))

theorem insertAt_get_eraseIdx (l : List Task) (i : Nat) (h : i < l.length) :
    insertAt i (l.get ⟨i, h⟩) (l.eraseIdx i) = l := by
  induction l generalizing i with
  | nil => simp at h
  | cons b l ih =>
    cases i with
    | zero => rfl
    | succ j =>
      have hj : j < l.length := by simpa using h
      show insertAt (j + 1) (l.get ⟨j, hj⟩) (b :: l.eraseIdx j) = b :: l
      rw [show insertAt (j + 1) (l.get ⟨j, hj⟩) (b :: l.eraseIdx j) =
        b :: insertAt j (l.get ⟨j, hj⟩) (l.eraseIdx j) from rfl]
      rw [ih j hj]

theorem clampPos_lt (np : Int) (n : Nat) (h : 0 < n) : clampPos np n < n := by
  unfold clampPos
  have h1 : min np ((n : Int) - 1) ≤ (n : Int) - 1 := min_le_right _ _
  have h2 : max 0 (min np ((n : Int) - 1)) ≤ (n : Int) - 1 := by
    apply max_le _ h1
    omega
  have h3 : (0 : Int) ≤ max 0 (min np ((n : Int) - 1)) := le_max_left _ _
  omega

theorem clampPos_self (i n : Nat) (h : i < n) : clampPos (i : Int) n = i := by
  unfold clampPos
  have h1 : min (i : Int) ((n : Int) - 1) = (i : Int) := min_eq_left (by omega)
  rw [h1]
  have h2 : max 0 (i : Int) = (i : Int) := max_eq_right (by omega)
  rw [h2]
  omega

theorem set_position_self (t : Task) (k : Nat) (h : t.position = some k) :
    ({ t with position := some k } : Task) = t := by
  cases t
  simp_all

theorem renumberFrom_eq_self (l : List Task) (k : Nat)
    (h : l.map Task.position = (List.range' k l.length).map some) :
    renumberFrom k l = l := by
  induction l generalizing k with
  | nil => rfl
  | cons t l ih =>
    simp only [List.map_cons, List.length_cons, List.range', List.cons.injEq] at h
    show ({ t with position := some k } : Task) :: renumberFrom (k + 1) l = t :: l
    rw [set_position_self t k h.1, ih (k + 1) h.2]

theorem position_of_posKey (t : Task) (k : Nat) (h : posKey t = (k : Int)) :
    t.position = some k := by
  cases hp : t.position with
  | none =>
    rw [posKey, hp] at h
    simp [optKey] at h
  | some m =>
    rw [posKey, hp] at h
    simp [optKey] at h
    have hm : m = k := by exact_mod_cast h
    rw [hm]

theorem map_position_of_map_posKey (l : List Task) (ks : List Nat)
    (h : l.map posKey = ks.map (fun (k : Nat) => (k : Int))) :
    l.map Task.position = ks.map some := by
  induction l generalizing ks with
  | nil =>
    cases ks with
    | nil => rfl
    | cons k ks => simp at h
  | cons t l ih =>
    cases ks with
    | nil => simp at h
    | cons k ks =>
      simp only [List.map_cons, List.cons.injEq] at h ⊢
      exact ⟨position_of_posKey t k h.1, ih ks h.2⟩

theorem sortByPosition_perm (ts : List Task) : (sortByPosition ts).Perm ts :=
  List.perm_insertionSort posLe ts

theorem sortByPosition_sorted (ts : List Task) : List.Sorted posLe (sortByPosition ts) :=
  List.sorted_insertionSort posLe ts

theorem sorted_dense_positions (ts : List Task) (n : Nat)
    (hd : (ts.map Task.position).Perm ((List.range n).map some)) :
    (sortByPosition ts).map Task.position = (List.range n).map some := by
  apply map_position_of_map_posKey
  have h1 : (ts.map posKey).Perm ((List.range n).map (fun (k : Nat) => (k : Int))) := by
    have h2 := hd.map optKey
    have h3 : (ts.map Task.position).map optKey = ts.map posKey := by
      rw [List.map_map]; rfl
    have h4 : (((List.range n).map some).map optKey) =
        (List.range n).map (fun (k : Nat) => (k : Int)) := by
      rw [List.map_map]; rfl
    rw [h3, h4] at h2
    exact h2
  apply List.eq_of_perm_of_sorted (r := ((· ≤ ·) : Int → Int → Prop))
  · exact ((sortByPosition_perm ts).map posKey).trans h1
  · exact List.Pairwise.map posKey (fun a b hab => hab) (sortByPosition_sorted ts)
  · exact List.Pairwise.map (fun (k : Nat) => (k : Int))
      (fun a b hab => by exact Int.ofNat_le.mpr (Nat.le_of_lt hab)) (List.sorted_lt_range n)

theorem dense_no_missing (l : List Task) (n : Nat)
    (h : l.map Task.position = (List.range n).map some) :
    (l.any (fun t => t.position.isNone)) = false := by
  cases hany : l.any (fun t => t.position.isNone) with
  | false => rfl
  | true =>
    exfalso
    obtain ⟨t, ht, hnone⟩ := List.any_eq_true.mp hany
    have hmem : t.position ∈ l.map Task.position := List.mem_map_of_mem Task.position ht
    rw [h] at hmem
    obtain ⟨k, _, hk⟩ := List.mem_map.mp hmem
    rw [← hk] at hnone
    simp at hnone

theorem dense_get_position (l : List Task) (n : Nat)
    (hd : l.map Task.position = (List.range n).map some) (i : Nat) (h : i < l.length) :
    (l.get ⟨i, h⟩).position = some i := by
  have hlen : l.length = n := by
    have := congrArg List.length hd
    simpa using this
  have h1 : (l.map Task.position)[i]? = some (some i) := by
    rw [hd, List.getElem?_map, List.getElem?_range (by omega)]
    rfl
  rw [List.getElem?_map, List.getElem?_eq_getElem h] at h1
  simpa [List.get_eq_getElem] using h1

theorem findIdx_lt (l : List Task) (tid : Nat) (hex : ∃ t ∈ l, t.id = tid) :
    l.findIdx (fun t => t.id == tid) < l.length := by
  apply List.findIdx_lt_length_of_exists
  obtain ⟨t, ht, rfl⟩ := hex
  exact ⟨t, ht, by simp⟩

theorem findIdx_get_id (l : List Task) (tid : Nat)
    (h : l.findIdx (fun t => t.id == tid) < l.length) :
    (l.get ⟨l.findIdx (fun t => t.id == tid), h⟩).id = tid := by
  have := List.findIdx_get (w := h)
  simpa using this

theorem findIdx_eq_of_get (l : List Task) (hnodup : (l.map Task.id).Nodup)
    (i : Nat) (h : i < l.length) :
    l.findIdx (fun t => t.id == (l.get ⟨i, h⟩).id) = i := by
  have hex : ∃ t ∈ l, t.id = (l.get ⟨i, h⟩).id := ⟨l.get ⟨i, h⟩, l.get_mem _ _, rfl⟩
  have hlt := findIdx_lt l _ hex
  have hid := findIdx_get_id l _ hlt
  have heq : l.get ⟨l.findIdx (fun t => t.id == (l.get ⟨i, h⟩).id), hlt⟩ = l.get ⟨i, h⟩ :=
    List.inj_on_of_nodup_map hnodup (l.get_mem _ _) (l.get_mem _ _) hid
  have hl : l.Nodup := List.Nodup.of_map Task.id hnodup
  have := (List.Nodup.get_inj_iff hl).mp heq
  simpa using this

theorem reorderTask_eq (s : AppState) (actor : Actor) (projectId taskId : Nat) (np : Int)
    (task : Task) (project : Project)
    (hfind : findTask s taskId = some task)
    (hbel : task.project = projectId)
    (hp : findProject s projectId = some project)
    (hauth : (isProjectMember project actor.id || (actor.role == UserRole.admin)) = true) :
    reorderTask s actor projectId taskId np = reorderApply s actor projectId taskId np := by
  have hcond := auth_cond_false hauth
  simp only [reorderTask, hfind, hbel, hp, hcond]
  simp

theorem reorderPT_map_pairs_perm (s : AppState) (projectId : Nat) :
    ((reorderPT s projectId).map (fun t => (t.id, t.project))).Perm
      ((projectTasksOf s projectId).map (fun t => (t.id, t.project))) := by
  simp only [reorderPT]
  split
  · rw [renumberFrom_map_pairs]
    exact (sortByPosition_perm _).map _
  · exact (sortByPosition_perm _).map _

theorem reorderPT_map_id_perm (s : AppState) (projectId : Nat) :
    ((reorderPT s projectId).map Task.id).Perm ((projectTasksOf s projectId).map Task.id) := by
  have h := (reorderPT_map_pairs_perm s projectId).map Prod.fst
  simpa [List.map_map, Function.comp] using h

theorem reorderPT_length (s : AppState) (projectId : Nat) :
    (reorderPT s projectId).length = (projectTasksOf s projectId).length := by
  have := (reorderPT_map_pairs_perm s projectId).length_eq
  simpa using this

theorem reorderApply_success (s : AppState) (actor : Actor) (projectId taskId : Nat) (np : Int)
    (hex : ∃ t ∈ reorderPT s projectId, t.id = taskId) :
    (reorderPT s projectId).findIdx (fun t => t.id == taskId) <
        (reorderPT s projectId).length ∧
      reorderApply s actor projectId taskId np =
        (Resp.okTasks (reorderCore (reorderPT s projectId)
            ((reorderPT s projectId).findIdx (fun t => t.id == taskId))
            (clampPos np (reorderPT s projectId).length)),
          { s with
              tasks := saveTasks s.tasks (reorderCore (reorderPT s projectId)
                ((reorderPT s projectId).findIdx (fun t => t.id == taskId))
                (clampPos np (reorderPT s projectId).length)),
              logs := s.logs ++ [{ task := taskId, user := actor.id, message := "Task reordered from position " ++ toString ((reorderPT s projectId).findIdx (fun t => t.id == taskId)) ++ " to " ++ toString (clampPos np (reorderPT s projectId).length) }],
              events := s.events ++ [SocketEvent.tasksReordered projectId
                (reorderCore (reorderPT s projectId)
                  ((reorderPT s projectId).findIdx (fun t => t.id == taskId))
                  (clampPos np (reorderPT s projectId).length))] }) := by
  have hlt := findIdx_lt (reorderPT s projectId) taskId hex
  refine ⟨hlt, ?_⟩
  simp only [reorderApply]
  rw [if_pos hlt]

theorem getD_eq_get (l : List Task) (c : Nat) (h : c < l.length) :
    l.getD c dummyTask = l.get ⟨c, h⟩ := by
  simp [List.getD_eq_getElem?_getD, List.getElem?_eq_getElem h]

theorem reorderCore_map_position (l : List Task) (c j : Nat) (h : c < l.length) :
    (reorderCore l c j).map Task.position = (List.range l.length).map some := by
  unfold reorderCore
  rw [renumberFrom_map_position, insertAt_length, List.length_eraseIdx, if_pos h]
  have hlen : l.length - 1 + 1 = l.length := by omega
  rw [hlen, List.range_eq_range']

theorem reorderCore_map_pairs_perm (l : List Task) (c j : Nat) (h : c < l.length) :
    ((reorderCore l c j).map (fun t => (t.id, t.project))).Perm
      (l.map (fun t => (t.id, t.project))) := by
  unfold reorderCore
  rw [renumberFrom_map_pairs, getD_eq_get l c h]
  exact ((insertAt_perm _ _ _).map _).trans ((get_cons_eraseIdx_perm l c h).map _)

theorem reorderCore_map_id_perm (l : List Task) (c j : Nat) (h : c < l.length) :
    ((reorderCore l c j).map Task.id).Perm (l.map Task.id) := by
  have h2 := (reorderCore_map_pairs_perm l c j h).map Prod.fst
  simpa [List.map_map, Function.comp] using h2

theorem reorderCore_getElem?_id (l : List Task) (c j : Nat) (h : c < l.length)
    (hj : j ≤ l.length - 1) :
    ((reorderCore l c j).map Task.id)[j]? = some (l.get ⟨c, h⟩).id := by
  rw [List.getElem?_map]
  unfold reorderCore
  rw [getD_eq_get l c h, renumberFrom_getElem?]
  rw [insertAt_getElem? j _ _ (by rw [List.length_eraseIdx, if_pos h]; omega)]
  rfl

theorem find?_id_self (nl : List Task) (hnodup : (nl.map Task.id).Nodup)
    (t : Task) (ht : t ∈ nl) :
    nl.find? (fun u => u.id == t.id) = some t := by
  induction nl with
  | nil => simp at ht
  | cons a l ih =>
    rw [List.map_cons, List.nodup_cons] at hnodup
    rcases List.mem_cons.mp ht with rfl | htl
    · exact List.find?_cons_of_pos (p := fun u : Task => u.id == t.id) _ (by simp)
    · have ha : a.id ≠ t.id := by
        intro heq
        exact hnodup.1 (heq ▸ List.mem_map_of_mem Task.id htl)
      rw [List.find?_cons_of_neg (p := fun u : Task => u.id == t.id) _ (by simp [ha])]
      exact ih hnodup.2 htl

theorem saveTasks_eq_self (stored nl : List Task)
    (hnodup : (stored.map Task.id).Nodup)
    (hsub : ∀ t ∈ nl, t ∈ stored) :
    saveTasks stored nl = stored := by
  unfold saveTasks
  have h : ∀ u ∈ stored, ((nl.find? (fun t => t.id == u.id)).getD u) = u := by
    intro u hu
    cases hf : nl.find? (fun t => t.id == u.id) with
    | none => rfl
    | some t =>
      have htl : t ∈ nl := List.mem_of_find?_eq_some hf
      have hid : t.id = u.id := by simpa using List.find?_some hf
      have ht : t = u := List.inj_on_of_nodup_map hnodup (hsub t htl) hu hid
      simp [ht]
  rw [List.map_congr_left h]
  exact List.map_id _

theorem saveTasks_filter_perm (stored nl : List Task) (P : Nat)
    (hnodup : (stored.map Task.id).Nodup)
    (hpairs : (nl.map (fun t => (t.id, t.project))).Perm
      ((stored.filter (fun t => t.project == P)).map (fun t => (t.id, t.project)))) :
    ((saveTasks stored nl).filter (fun t => t.project == P)).Perm nl := by
  have hids : (nl.map Task.id).Perm
      ((stored.filter (fun t => t.project == P)).map Task.id) := by
    have h2 := hpairs.map Prod.fst
    simpa [List.map_map, Function.comp] using h2
  have hmemnl : ∀ t ∈ nl, t.project = P ∧
      t.id ∈ (stored.filter (fun t => t.project == P)).map Task.id := by
    intro t ht
    have hpair : (t.id, t.project) ∈
        (stored.filter (fun t => t.project == P)).map (fun t => (t.id, t.project)) :=
      hpairs.subset (List.mem_map_of_mem _ ht)
    obtain ⟨u, hu, hup⟩ := List.mem_map.mp hpair
    have h1 : u.id = t.id := congrArg Prod.fst hup
    have h2 : u.project = t.project := congrArg Prod.snd hup
    have huP : u.project = P := by
      have := (List.mem_filter.mp hu).2
      simpa using this
    constructor
    · rw [← h2]
      exact huP
    · rw [← h1]
      exact List.mem_map_of_mem Task.id hu
  have hopnodup : ((stored.filter (fun t => t.project == P)).map Task.id).Nodup :=
    List.Nodup.sublist (List.Sublist.map Task.id (List.filter_sublist stored)) hnodup
  have hnlnodup : (nl.map Task.id).Nodup := hids.nodup_iff.mpr hopnodup
  have hfind_some : ∀ u ∈ stored.filter (fun t => t.project == P),
      ∃ t0, nl.find? (fun t2 => t2.id == u.id) = some t0 := by
    intro u hu
    have hmem : u.id ∈ nl.map Task.id :=
      hids.symm.subset (List.mem_map_of_mem Task.id hu)
    obtain ⟨t, htl, hti⟩ := List.mem_map.mp hmem
    cases hf : nl.find? (fun t2 => t2.id == u.id) with
    | some t0 => exact ⟨t0, rfl⟩
    | none =>
      rw [List.find?_eq_none] at hf
      exact absurd (show (t.id == u.id) = true by simp [hti]) (hf t htl)
  have hfilter_comm :
      (saveTasks stored nl).filter (fun t => t.project == P) =
        (stored.filter (fun t => t.project == P)).map
          (fun u => (nl.find? (fun t2 => t2.id == u.id)).getD u) := by
    unfold saveTasks
    rw [List.filter_map]
    congr 1
    apply List.filter_congr
    intro u hu
    cases hf : nl.find? (fun t2 => t2.id == u.id) with
    | none => simp [Function.comp, hf]
    | some t =>
      have htl : t ∈ nl := List.mem_of_find?_eq_some hf
      have hid : t.id = u.id := by simpa using List.find?_some hf
      obtain ⟨w, hw, hwid⟩ := List.mem_map.mp (hmemnl t htl).2
      have hwst : w ∈ stored := List.mem_of_mem_filter hw
      have hwu : w = u := List.inj_on_of_nodup_map hnodup hwst hu (by rw [hwid, hid])
      have huP : u.project = P := by
        have := (List.mem_filter.mp hw).2
        rw [← hwu]
        simpa using this
      simp [Function.comp, hf, (hmemnl t htl).1, huP]
  rw [hfilter_comm]
  have h1 : (stored.filter (fun t => t.project == P)).map
      (fun u => (nl.find? (fun t2 => t2.id == u.id)).getD u) =
      ((stored.filter (fun t => t.project == P)).map Task.id).map
        (fun i => (nl.find? (fun t2 => t2.id == i)).getD taskA) := by
    rw [List.map_map]
    apply List.map_congr_left
    intro u hu
    obtain ⟨t0, hf⟩ := hfind_some u hu
    simp [Function.comp, hf]
  have h2 : (nl.map Task.id).map
      (fun i => (nl.find? (fun t2 => t2.id == i)).getD taskA) = nl := by
    rw [List.map_map]
    have hcong : ∀ t ∈ nl,
        ((fun i => (nl.find? (fun t2 => t2.id == i)).getD taskA) ∘ Task.id) t = t := by
      intro t ht
      simp [Function.comp, find?_id_self nl hnlnodup t ht]
    rw [List.map_congr_left hcong]
    exact List.map_id _
  rw [h1]
  have h3 := hids.symm.map (fun i => (nl.find? (fun t2 => t2.id == i)).getD taskA)
  rw [h2] at h3
  exact h3

theorem reorder_task_in_pt (s : AppState) (projectId taskId : Nat) (task : Task)
    (hfind : findTask s taskId = some task)
    (hbel : task.project = projectId) :
    ∃ t ∈ reorderPT s projectId, t.id = taskId := by
  have htaskmem : task ∈ projectTasksOf s projectId := by
    apply List.mem_filter.mpr
    exact ⟨List.mem_of_find?_eq_some hfind, by simp [hbel]⟩
  have htid : task.id = taskId := by simpa using List.find?_some hfind
  have hexid : taskId ∈ (reorderPT s projectId).map Task.id := by
    apply (reorderPT_map_id_perm s projectId).symm.subset
    rw [← htid]
    exact List.mem_map_of_mem Task.id htaskmem
  obtain ⟨t, htl, hti⟩ := List.mem_map.mp hexid
  exact ⟨t, htl, hti⟩

/-- C1: for a project whose live work items currently carry positions
0..N-1, `ReorderWorkItem` clamps the target position into [0, N-1],
moves the item there, and renumbers sequentially from 0: the returned
(and persisted) list contains exactly the same items, its position values
are exactly 0..N-1, the moved item sits at the clamped index, and exactly
one new audit entry is created for the moved item. -/
theorem C1_reorder_renumbers_densely
    (s : AppState) (actor : Actor) (projectId taskId : Nat) (np : Int)
    (task : Task) (project : Project)
    (hfind : findTask s taskId = some task)
    (hbel : task.project = projectId)
    (hp : findProject s projectId = some project)
    (hauth : (isProjectMember project actor.id || (actor.role == UserRole.admin)) = true)
    (hnodup : (s.tasks.map Task.id).Nodup)
    (hdense : ((projectTasksOf s projectId).map Task.position).Perm
      ((List.range (projectTasksOf s projectId).length).map some)) :
    ∃ (newList : List Task) (entry : TaskLog),
      reorderTask s actor projectId taskId np =
        (Resp.okTasks newList,
          { s with tasks := saveTasks s.tasks newList, logs := s.logs ++ [entry], events := s.events ++ [SocketEvent.tasksReordered projectId newList] }) ∧
      (newList.map Task.id).Perm ((projectTasksOf s projectId).map Task.id) ∧
      newList.map Task.position =
        (List.range (projectTasksOf s projectId).length).map some ∧
      (newList.map Task.id)[clampPos np (projectTasksOf s projectId).length]? = some taskId ∧
      entry.task = taskId ∧ entry.user = actor.id := by
  rw [reorderTask_eq s actor projectId taskId np task project hfind hbel hp hauth]
  obtain ⟨hlt, heq⟩ := reorderApply_success s actor projectId taskId np
    (reorder_task_in_pt s projectId taskId task hfind hbel)
  rw [heq]
  have hlen := reorderPT_length s projectId
  refine ⟨_, _, rfl, ?_, ?_, ?_, rfl, rfl⟩
  · exact (reorderCore_map_id_perm _ _ _ hlt).trans (reorderPT_map_id_perm s projectId)
  · rw [reorderCore_map_position _ _ _ hlt, hlen]
  · rw [← hlen]
    have h0 : 0 < (reorderPT s projectId).length := Nat.lt_of_le_of_lt (Nat.zero_le _) hlt
    rw [reorderCore_getElem?_id _ _ _ hlt (by have := clampPos_lt np _ h0; omega)]
    rw [findIdx_get_id _ _ hlt]

/-- Witness for C1: moving item C (positions [0,1,2] for A,B,C) to
position 0 in the sample project. -/
theorem C1_reorder_renumbers_densely_witness :
    findTask sampleS 13 = some taskC ∧
    taskC.project = 100 ∧
    findProject sampleS 100 = some project1 ∧
    (isProjectMember project1 actor1.id || (actor1.role == UserRole.admin)) = true ∧
    (sampleS.tasks.map Task.id).Nodup ∧
    ((projectTasksOf sampleS 100).map Task.position).Perm
      ((List.range (projectTasksOf sampleS 100).length).map some) ∧
    ∃ (newList : List Task) (entry : TaskLog),
      reorderTask sampleS actor1 100 13 0 =
        (Resp.okTasks newList,
          { sampleS with tasks := saveTasks sampleS.tasks newList, logs := sampleS.logs ++ [entry], events := sampleS.events ++ [SocketEvent.tasksReordered 100 newList] }) ∧
      (newList.map Task.id).Perm ((projectTasksOf sampleS 100).map Task.id) ∧
      newList.map Task.position =
        (List.range (projectTasksOf sampleS 100).length).map some ∧
      (newList.map Task.id)[clampPos 0 (projectTasksOf sampleS 100).length]? = some 13 ∧
      entry.task = 13 ∧ entry.user = actor1.id :=
  ⟨by decide, by decide, by decide, by decide, by decide, by decide,
    C1_reorder_renumbers_densely sampleS actor1 100 13 0 taskC project1
      (by decide) (by decide) (by decide) (by decide) (by decide) (by decide)⟩

/-- C2 counterexample: starting from an empty project, two successive
`CreateWorkItem` commands leave both live work items with the schema
default position 0, so the position multiset is {0,0}, not {0,1}: the
dense-ordering invariant does not hold in all reachable states. -/
theorem C2_counterexample :
    (projectTasksOf state3 100).length = 2 ∧
    (projectTasksOf state3 100).map Task.position = [some 0, some 0] ∧
    ¬ (((projectTasksOf state3 100).map Task.position).Perm
        ((List.range (projectTasksOf state3 100).length).map some)) := by
  refine ⟨by decide, by decide, ?_⟩
  intro h
  exact absurd h (by decide)

/-- C2 (amended): the dense-ordering property is not an invariant of all
reachable states (creation gives every new work item the default position
0 and deletion does not renumber), but it is established by every
successful `ReorderWorkItem`: immediately afterwards the stored positions
of the project's live work items are exactly {0,…,N−1}. -/
theorem C2_dense_after_reorder
    (s : AppState) (actor : Actor) (projectId taskId : Nat) (np : Int)
    (task : Task) (project : Project)
    (hfind : findTask s taskId = some task)
    (hbel : task.project = projectId)
    (hp : findProject s projectId = some project)
    (hauth : (isProjectMember project actor.id || (actor.role == UserRole.admin)) = true)
    (hnodup : (s.tasks.map Task.id).Nodup) :
    (∃ nl : List Task, (reorderTask s actor projectId taskId np).1 = Resp.okTasks nl) ∧
    (((reorderTask s actor projectId taskId np).2.tasks.filter
        (fun t => t.project == projectId)).map Task.position).Perm
      ((List.range (projectTasksOf s projectId).length).map some) := by
  rw [reorderTask_eq s actor projectId taskId np task project hfind hbel hp hauth]
  obtain ⟨hlt, heq⟩ := reorderApply_success s actor projectId taskId np
    (reorder_task_in_pt s projectId taskId task hfind hbel)
  rw [heq]
  refine ⟨⟨_, rfl⟩, ?_⟩
  have hpairs : ((reorderCore (reorderPT s projectId)
      ((reorderPT s projectId).findIdx (fun t => t.id == taskId))
      (clampPos np (reorderPT s projectId).length)).map
        (fun t => (t.id, t.project))).Perm
      ((s.tasks.filter (fun t => t.project == projectId)).map (fun t => (t.id, t.project))) :=
    (reorderCore_map_pairs_perm _ _ _ hlt).trans (reorderPT_map_pairs_perm s projectId)
  have hflt := saveTasks_filter_perm s.tasks
    (reorderCore (reorderPT s projectId)
      ((reorderPT s projectId).findIdx (fun t => t.id == taskId))
      (clampPos np (reorderPT s projectId).length))
    projectId hnodup hpairs
  have hpos := reorderCore_map_position (reorderPT s projectId)
    ((reorderPT s projectId).findIdx (fun t => t.id == taskId))
    (clampPos np (reorderPT s projectId).length) hlt
  conv at hpos => rhs; rw [reorderPT_length]
  have hfin := hflt.map Task.position
  rw [hpos] at hfin
  exact hfin

/-- Witness for C2 (amended): reordering item C to position 0 in the
sample project re-establishes dense positions in the stored state. -/
theorem C2_dense_after_reorder_witness :
    findTask sampleS 13 = some taskC ∧
    taskC.project = 100 ∧
    findProject sampleS 100 = some project1 ∧
    (isProjectMember project1 actor1.id || (actor1.role == UserRole.admin)) = true ∧
    (sampleS.tasks.map Task.id).Nodup ∧
    ((∃ nl : List Task, (reorderTask sampleS actor1 100 13 0).1 = Resp.okTasks nl) ∧
    (((reorderTask sampleS actor1 100 13 0).2.tasks.filter
        (fun t => t.project == 100)).map Task.position).Perm
      ((List.range (projectTasksOf sampleS 100).length).map some)) :=
  ⟨by decide, by decide, by decide, by decide, by decide,
    C2_dense_after_reorder sampleS actor1 100 13 0 taskC project1
      (by decide) (by decide) (by decide) (by decide) (by decide)⟩

/-- C3: in a project with dense positions 0..N-1, reordering a work item
to its own current position leaves the stored work items (content and
positions) completely unchanged and returns the unchanged position-sorted
list, yet still appends exactly one audit entry for the item and
publishes exactly one reorder fan-out event (and no notification). -/
theorem C3_reorder_to_current_position
    (s : AppState) (actor : Actor) (projectId taskId : Nat)
    (task : Task) (project : Project) (p : Nat)
    (hfind : findTask s taskId = some task)
    (hbel : task.project = projectId)
    (hp : findProject s projectId = some project)
    (hauth : (isProjectMember project actor.id || (actor.role == UserRole.admin)) = true)
    (hnodup : (s.tasks.map Task.id).Nodup)
    (hdense : ((projectTasksOf s projectId).map Task.position).Perm
      ((List.range (projectTasksOf s projectId).length).map some))
    (hpos : task.position = some p) :
    (reorderTask s actor projectId taskId (p : Int)).2.tasks = s.tasks ∧
    (reorderTask s actor projectId taskId (p : Int)).1 =
      Resp.okTasks (sortByPosition (projectTasksOf s projectId)) ∧
    (∃ entry : TaskLog,
      (reorderTask s actor projectId taskId (p : Int)).2.logs = s.logs ++ [entry] ∧
      entry.task = taskId ∧ entry.user = actor.id) ∧
    (reorderTask s actor projectId taskId (p : Int)).2.events =
      s.events ++ [SocketEvent.tasksReordered projectId
        (sortByPosition (projectTasksOf s projectId))] ∧
    (reorderTask s actor projectId taskId (p : Int)).2.notifications = s.notifications := by
  have hop := sorted_dense_positions (projectTasksOf s projectId) _ hdense
  have hmig := dense_no_missing _ _ hop
  have hpt : reorderPT s projectId = sortByPosition (projectTasksOf s projectId) := by
    simp [reorderPT, hmig]
  rw [reorderTask_eq s actor projectId taskId (p : Int) task project hfind hbel hp hauth]
  obtain ⟨hlt, heq⟩ := reorderApply_success s actor projectId taskId (p : Int)
    (reorder_task_in_pt s projectId taskId task hfind hbel)
  rw [hpt] at hlt heq
  have hnodup_op : ((projectTasksOf s projectId).map Task.id).Nodup :=
    List.Nodup.sublist (List.Sublist.map Task.id (List.filter_sublist s.tasks)) hnodup
  have hnodup_sorted :
      ((sortByPosition (projectTasksOf s projectId)).map Task.id).Nodup :=
    ((sortByPosition_perm _).map Task.id).nodup_iff.mpr hnodup_op
  have htaskmem : task ∈ sortByPosition (projectTasksOf s projectId) := by
    apply ((sortByPosition_perm _).mem_iff).mpr
    apply List.mem_filter.mpr
    exact ⟨List.mem_of_find?_eq_some hfind, by simp [hbel]⟩
  have htid : task.id = taskId := by simpa using List.find?_some hfind
  obtain ⟨⟨i, hi⟩, hgeti⟩ := List.get_of_mem htaskmem
  have hposi : ((sortByPosition (projectTasksOf s projectId)).get ⟨i, hi⟩).position = some i :=
    dense_get_position _ _ hop i hi
  have hip : i = p := by
    rw [hgeti, hpos] at hposi
    exact (Option.some.inj hposi).symm
  subst hip
  have hcur : (sortByPosition (projectTasksOf s projectId)).findIdx
      (fun t => t.id == taskId) = i := by
    have h2 := findIdx_eq_of_get _ hnodup_sorted i hi
    have h3 : ((sortByPosition (projectTasksOf s projectId)).get ⟨i, hi⟩).id = taskId := by
      rw [hgeti]
      exact htid
    simp only [h3] at h2
    exact h2
  rw [hcur] at heq
  have hsafe : clampPos ((i : Nat) : Int)
      (sortByPosition (projectTasksOf s projectId)).length = i :=
    clampPos_self i _ hi
  rw [hsafe] at heq
  have hlen_n : (sortByPosition (projectTasksOf s projectId)).length =
      (projectTasksOf s projectId).length := (sortByPosition_perm _).length_eq
  have hcore : reorderCore (sortByPosition (projectTasksOf s projectId)) i i =
      sortByPosition (projectTasksOf s projectId) := by
    unfold reorderCore
    rw [getD_eq_get _ i hi, insertAt_get_eraseIdx _ i hi]
    apply renumberFrom_eq_self
    rw [← List.range_eq_range', hlen_n]
    exact hop
  rw [hcore] at heq
  have hsave : saveTasks s.tasks (sortByPosition (projectTasksOf s projectId)) = s.tasks := by
    apply saveTasks_eq_self s.tasks _ hnodup
    intro t ht
    exact List.mem_of_mem_filter ((sortByPosition_perm _).subset ht)
  rw [hsave] at heq
  rw [heq]
  exact ⟨rfl, rfl, ⟨_, rfl, rfl, rfl⟩, rfl, rfl⟩

/-- Witness for C3: reordering item C (position 2) to position 2 in the
sample project changes nothing but still logs and publishes. -/
theorem C3_reorder_to_current_position_witness :
    findTask sampleS 13 = some taskC ∧
    taskC.project = 100 ∧
    findProject sampleS 100 = some project1 ∧
    (isProjectMember project1 actor1.id || (actor1.role == UserRole.admin)) = true ∧
    (sampleS.tasks.map Task.id).Nodup ∧
    ((projectTasksOf sampleS 100).map Task.position).Perm
      ((List.range (projectTasksOf sampleS 100).length).map some) ∧
    taskC.position = some 2 ∧
    ((reorderTask sampleS actor1 100 13 ((2 : Nat) : Int)).2.tasks = sampleS.tasks ∧
    (reorderTask sampleS actor1 100 13 ((2 : Nat) : Int)).1 =
      Resp.okTasks (sortByPosition (projectTasksOf sampleS 100)) ∧
    (∃ entry : TaskLog,
      (reorderTask sampleS actor1 100 13 ((2 : Nat) : Int)).2.logs =
        sampleS.logs ++ [entry] ∧
      entry.task = 13 ∧ entry.user = actor1.id) ∧
    (reorderTask sampleS actor1 100 13 ((2 : Nat) : Int)).2.events =
      sampleS.events ++ [SocketEvent.tasksReordered 100
        (sortByPosition (projectTasksOf sampleS 100))] ∧
    (reorderTask sampleS actor1 100 13 ((2 : Nat) : Int)).2.notifications =
      sampleS.notifications) :=
  ⟨by decide, by decide, by decide, by decide, by decide, by decide, by decide,
    C3_reorder_to_current_position sampleS actor1 100 13 taskC project1 2
      (by decide) (by decide) (by decide) (by decide) (by decide) (by decide) (by decide)⟩

end TMS
